import Mathlib

/-!
Verification of the asynchronous completion bridge and transaction
operation layer of the node-foundationdb binding.

The definitions below shallowly embed the decode functions, the value
marshaler (`StringParams`), the synchronous error-raising verbs and the
watch machinery of `src/src/Transaction.cpp`, and the network-startup
guard of `src/lib/index.ts`.  Native futures are embedded as records
carrying the error code and the result payload that the corresponding
`fdb_future_get_*` accessor would deliver; V8 `Local<Value>` results are
embedded as the inductive `JSValue`.
-/

namespace FdbBinding

/-! ## Value marshaler: `StringParams` (Transaction.cpp, lines 56-85) -/

/-- A host value that is semantically bytes: either a textual JS string
or a binary node `Buffer`. -/
inductive HostBytes where
  | text (s : String)
  | buffer (b : List UInt8)
deriving DecidableEq, Repr

/-- The raw `(pointer, length)` parameter view plus ownership flag that
`StringParams` produces.  Pointer sharing is embedded as the byte list
itself: an un-owned view holds exactly the buffer's bytes. -/
structure RawParam where
  owned : Bool
  str : List UInt8
  len : Int
deriving DecidableEq, Repr

/-- The UTF-8 byte encoding a V8 `String::WriteUtf8` produces
(`s->Utf8Length()` bytes). -/
def utf8Bytes (s : String) : List UInt8 := s.toUTF8.toList

/-- `StringParams::StringParams` (Transaction.cpp, lines 66-81): a JS
string is copied into an owned UTF-8 byte buffer; anything else is
treated as a node `Buffer` and referenced directly without copying. -/
def StringParams (keyVal : HostBytes) : RawParam :=
  match keyVal with
  | .text s =>
      { owned := true, str := utf8Bytes s, len := (utf8Bytes s).length }
  | .buffer b =>
      { owned := false, str := b, len := b.length }

/-! ## Native futures and decoded host values -/

/-- A completed native future as seen by `fdb_future_get_value`: the
error code, the `valuePresent` sentinel and the value region. -/
structure ValueFuture where
  errorCode : Nat
  valuePresent : Bool
  value : List UInt8
deriving DecidableEq, Repr

/-- A completed native future as seen by `fdb_future_get_key`. -/
structure KeyFuture where
  errorCode : Nat
  key : List UInt8
deriving DecidableEq, Repr

/-- One `FDBKeyValue` entry of a range result. -/
structure KVPair where
  key : List UInt8
  value : List UInt8
deriving DecidableEq, Repr

/-- A completed native future as seen by
`fdb_future_get_keyvalue_array`: error code, entries in store order and
the `more` indicator. -/
structure KeyValueFuture where
  errorCode : Nat
  kvs : List KVPair
  more : Bool
deriving DecidableEq, Repr

/-- A completed native future as seen by `fdb_future_get_string_array`. -/
structure StringArrayFuture where
  errorCode : Nat
  strings : List String
deriving DecidableEq, Repr

/-- A completed native future as seen by `fdb_future_get_version`:
error code and the native 64-bit version. -/
structure VersionFuture where
  errorCode : Nat
  version : Int
deriving DecidableEq, Repr

/-- The host-side `Local<Value>` a decode function returns. -/
inductive JSValue where
  | undefined
  | null
  | buffer (b : List UInt8)
  | kvResult (values : List (List UInt8 × List UInt8)) (more : Bool)
  | strArray (ss : List String)
  | number (n : Int)
deriving DecidableEq, Repr

/-! ## The `(double)` cast used for 64-bit versions

`getVersion` and `Transaction::GetCommittedVersion` hand the native
`int64_t` to JS through `Number::New(isolate, (double)version)`.  The
C cast of an integer to IEEE-754 binary64 rounds to the nearest
representable value (ties to even) once the magnitude exceeds the
53-bit significand. -/

/-- Bit length of a natural number below `2 ^ fuel`; 64 iterations
cover every 64-bit magnitude. -/
def bitLenAux : Nat → Nat → Nat
  | 0, _ => 0
  | fuel + 1, n => if n = 0 then 0 else bitLenAux fuel (n / 2) + 1

/-- Bit length of a 64-bit magnitude. -/
def bitLen (n : Nat) : Nat := bitLenAux 64 n

/-- Round a natural number to the nearest IEEE-754 binary64 value
(ties to even), expressed as the exact integer the double denotes.
Magnitudes up to `2 ^ 53` are exact; above that the significand keeps
the top 53 bits and the remainder rounds half-to-even. -/
def natToDouble53 (n : Nat) : Nat :=
  if n ≤ 2 ^ 53 then n
  else
    let e := bitLen n - 53
    let q := n / 2 ^ e
    let r := n % 2 ^ e
    let half := 2 ^ e / 2
    let qr := if half < r ∨ (r = half ∧ q % 2 = 1) then q + 1 else q
    qr * 2 ^ e

/-- The value of `(double)v` for a 64-bit integer `v`, as the exact
integer the resulting double denotes. -/
def doubleOfInt64 (v : Int) : Int :=
  if 0 ≤ v then (natToDouble53 v.toNat : Int) else -(natToDouble53 (-v).toNat : Int)

/-! ## Decode functions (Transaction.cpp, lines 97-193)

Each mirrors one `static Local<Value> f(FDBFuture*, fdb_error_t*)`:
the result is the returned `Local<Value>` paired with `*errOut`. -/

/-- `ignoreResult` (lines 97-100): void / error-only decode. -/
def ignoreResult (errorCode : Nat) : JSValue × Nat :=
  (JSValue.undefined, errorCode)

/-- `getValue` (lines 102-115): on a non-zero error return `Undefined`;
otherwise `Null` when the key-not-present sentinel is clear
(`valuePresent == 0`), else a copy of the value region as a Buffer. -/
def getValue (f : ValueFuture) : JSValue × Nat :=
  if f.errorCode ≠ 0 then (JSValue.undefined, f.errorCode)
  else
    ((if f.valuePresent then JSValue.buffer f.value else JSValue.null), f.errorCode)

/-- `getKey` (lines 117-126): a copy of the key region as a Buffer. -/
def getKey (f : KeyFuture) : JSValue × Nat :=
  if f.errorCode ≠ 0 then (JSValue.undefined, f.errorCode)
  else (JSValue.buffer f.key, f.errorCode)

/-- `getKeyValueList` (lines 128-164): builds
`\x7b values: [\x7bkey, value\x7d, ...], more \x7d` by copying each
native entry in index order. -/
def getKeyValueList (f : KeyValueFuture) : JSValue × Nat :=
  if f.errorCode ≠ 0 then (JSValue.undefined, f.errorCode)
  else
    (JSValue.kvResult (f.kvs.map fun kv => (kv.key, kv.value)) f.more, f.errorCode)

/-- `getStringArray` (lines 166-181): an array of JS strings. -/
def getStringArray (f : StringArrayFuture) : JSValue × Nat :=
  if f.errorCode ≠ 0 then (JSValue.undefined, f.errorCode)
  else (JSValue.strArray f.strings, f.errorCode)

/-- `getVersion` (lines 183-193): the 64-bit version cast to a JS
number through `(double)version`. -/
def getVersion (f : VersionFuture) : JSValue × Nat :=
  if f.errorCode ≠ 0 then (JSValue.undefined, f.errorCode)
  else (JSValue.number (doubleOfInt64 f.version), f.errorCode)

/-- How the future bridge delivers a decode result to the host: a
non-zero `*errOut` becomes a typed error instead of a value. -/
def surface (p : JSValue × Nat) : Except Nat JSValue :=
  if p.2 ≠ 0 then Except.error p.2 else Except.ok p.1

/-! ## Dispatch of asynchronous verbs to native calls and decoders

Each future-returning method of `Transaction` pairs one native entry
point with one decode function (`futureToJS(f, cb, decodeFn)`). -/

/-- The native entry point a verb invokes to obtain its future. -/
inductive NativeCall where
  | transactionGet
  | transactionGetKey
  | transactionGetRange
  | transactionGetReadVersion
  | transactionGetAddressesForKey
  | transactionWatch
  | transactionCommit
  | transactionOnError
deriving DecidableEq, Repr

/-- The decode function a verb passes to `futureToJS`. -/
inductive DecoderTag where
  | ignoreResultTag
  | valueTag
  | keyTag
  | keyValueListTag
  | stringArrayTag
  | versionTag
deriving DecidableEq, Repr

/-- The asynchronous verbs of the `Transaction` surface. -/
inductive AsyncVerb where
  | commit
  | onError
  | get
  | getKeySelector
  | getRange
  | getReadVersion
  | getVersionStamp
  | getAddressesForKey
  | watch
deriving DecidableEq, Repr

/-- The (native entry point, decoder) pair each async verb uses, read
off the bodies of `Transaction::Commit`/`OnError`/`Get`/`GetKey`/
`GetRange`/`GetReadVersion`/`GetVersionStamp`/`GetAddressesForKey`/
`Watch` in Transaction.cpp. -/
def dispatch : AsyncVerb → NativeCall × DecoderTag
  | .commit => (.transactionCommit, .ignoreResultTag)
  | .onError => (.transactionOnError, .ignoreResultTag)
  | .get => (.transactionGet, .valueTag)
  | .getKeySelector => (.transactionGetKey, .keyTag)
  | .getRange => (.transactionGetRange, .keyValueListTag)
  | .getReadVersion => (.transactionGetReadVersion, .versionTag)
  | .getVersionStamp => (.transactionGetReadVersion, .keyTag)
  | .getAddressesForKey => (.transactionGetAddressesForKey, .stringArrayTag)
  | .watch => (.transactionWatch, .ignoreResultTag)

/-! ## Synchronous verbs that can fail natively

These call a native function returning an `fdb_error_t` and raise a
typed `FdbError` with `Nan::ThrowError` right at the call site on a
non-zero code; an `Except` models thrown-vs-returned. -/

/-- `FDBConflictRangeType`. -/
inductive FDBConflictRangeType where
  | read
  | write
deriving DecidableEq, Repr

/-- `Transaction::AddConflictRange` (lines 369-376): the behavior as a
function of the error code `fdb_transaction_add_conflict_range`
returns; a non-zero code throws `FdbError::NewInstance(errorCode)`. -/
def AddConflictRange (ty : FDBConflictRangeType) (errorCode : Nat) :
    Except Nat Unit :=
  match ty with
  | _ => if errorCode ≠ 0 then Except.error errorCode else Except.ok ()

/-- `Transaction::AddReadConflictRange` (lines 379-381). -/
def AddReadConflictRange : Nat → Except Nat Unit :=
  AddConflictRange FDBConflictRangeType.read

/-- `Transaction::AddWriteConflictRange` (lines 384-386). -/
def AddWriteConflictRange : Nat → Except Nat Unit :=
  AddConflictRange FDBConflictRangeType.write

/-- `Transaction::GetCommittedVersion` (lines 337-347): the behavior as
a function of the `(errorCode, version)` pair that
`fdb_transaction_get_committed_version` produces; a non-zero code
throws, a zero code returns `(double)version`. -/
def GetCommittedVersion (errorCode : Nat) (version : Int) :
    Except Nat Int :=
  if errorCode ≠ 0 then Except.error errorCode
  else Except.ok (doubleOfInt64 version)

/-! ## Watch handles and native future cancellation -/

/-- Modelled from the spec: the native future state the external
client library maintains, as far as cancellation is concerned (the
client library itself is outside this repository).  `cancel()` before
completion "requests native cancellation"; "calling cancel after
natural completion is a no-op" (spec, Watch Subscription invariant). -/
structure NativeFuture where
  completed : Bool
  cancelRequested : Bool
deriving DecidableEq, Repr

/-- Modelled from the spec: `fdb_future_cancel` on an already-completed
future is a no-op; otherwise it records the cancellation request. -/
def fdbFutureCancel (f : NativeFuture) : NativeFuture :=
  if f.completed then f else { f with cancelRequested := true }

/-- A `Watch` wrapper object: its `NodeCallback*` member may be null,
the callback's stored future may be null, otherwise it refers to one
native future (`NodeCallback.h` is not under src/, so the callback is
embedded as just its future). -/
structure WatchState where
  hasCallback : Bool
  hasFuture : Bool
  future : NativeFuture
deriving DecidableEq, Repr

/-- `Watch::Cancel` (Transaction.cpp, lines 517-523): if the callback
and its future exist, call `fdb_future_cancel` on the future. -/
def WatchCancel (w : WatchState) : WatchState :=
  if w.hasCallback ∧ w.hasFuture then
    { w with future := fdbFutureCancel w.future }
  else w

/-! ## The pending operation and its completion continuation

Modelled from the spec: `NodeCallback`/`future.h` (the Future Bridge)
are not under src/.  Per spec §4.2, the external library invokes the
registered completion callback exactly once; the callback hands off to
the host context, where the continuation receives either a typed error
(non-zero code, including a canceled-operation error) or the decoded
value.  `cancel()` is advisory only: it requests native cancellation
but never invokes the continuation itself.  An execution is an
arbitrary interleaving of host cancel requests with the one native
completion signal. -/

/-- One event observable by a Pending Operation: a host-side `cancel()`
call, or the native completion callback firing with the outcome it
delivers (a typed error or the decoded value). -/
inductive OpEvent where
  | cancelRequest
  | nativeComplete (outcome : Except Nat JSValue)
deriving Repr

/-- Modelled from the spec: the state of a Pending Operation, counting
continuation invocations. -/
structure PendingOp where
  fireCount : Nat
  delivered : Option (Except Nat JSValue)
  cancelRequested : Bool
deriving Repr

/-- A fresh Pending Operation: continuation not yet fired. -/
def PendingOp.initial : PendingOp :=
  { fireCount := 0, delivered := none, cancelRequested := false }

/-- Modelled from the spec: how a Pending Operation reacts to one
event.  A cancel request only records the advisory flag; the native
completion fires the continuation with the delivered outcome. -/
def PendingOp.step (p : PendingOp) : OpEvent → PendingOp
  | .cancelRequest => { p with cancelRequested := true }
  | .nativeComplete r =>
      { p with fireCount := p.fireCount + 1, delivered := some r }

/-- Run a Pending Operation over a whole event interleaving. -/
def PendingOp.run (p : PendingOp) (es : List OpEvent) : PendingOp :=
  es.foldl PendingOp.step p

/-- Whether an event is the native completion signal. -/
def OpEvent.isComplete : OpEvent → Bool
  | .nativeComplete _ => true
  | .cancelRequest => false

/-! ## Network startup guard (src/lib/index.ts, lines 25-39, 122-136) -/

/-- The module-level state of `lib/index.ts`: whether `setAPIVersion`
has been called, the `initCalled` guard flag, and how many times
`nativeMod.startNetwork()` has run. -/
structure NetworkState where
  apiVersionSet : Bool
  initCalled : Bool
  startNetworkCount : Nat
deriving DecidableEq, Repr

/-- The state at module load: no API version, guard clear, network not
started. -/
def NetworkState.initial : NetworkState :=
  { apiVersionSet := false, initCalled := false, startNetworkCount := 0 }

/-- `init` (index.ts, lines 28-39): throw if no API version is set;
return early if the guard flag is set; otherwise set the guard and
start the network. -/
def init (s : NetworkState) : Except String NetworkState :=
  if !s.apiVersionSet then
    Except.error "You must specify an API version to connect to FoundationDB."
  else if s.initCalled then Except.ok s
  else
    Except.ok { s with initCalled := true,
                       startNetworkCount := s.startNetworkCount + 1 }

/-- `open` (index.ts, lines 122-136) begins with `init()`; a thrown
error leaves the module state unchanged, database construction does not
touch it. -/
def openStep (s : NetworkState) : NetworkState :=
  match init s with
  | Except.ok t => t
  | Except.error _ => s

/-- The calls that touch the module state: `setAPIVersion`, `open`,
the deprecated `openSync` (an alias of `open` via `deprecate`), and the
stub cluster's `openDatabase`/`openDatabaseSync` (which call `open`). -/
inductive ApiEvent where
  | setAPIVersion
  | openCall
  | openSyncCall
  | clusterOpenDatabase
deriving DecidableEq, Repr

/-- One call's effect on the module state. -/
def apiStep (s : NetworkState) : ApiEvent → NetworkState
  | .setAPIVersion => { s with apiVersionSet := true }
  | .openCall => openStep s
  | .openSyncCall => openStep s
  | .clusterOpenDatabase => openStep s

/-- A whole call sequence's effect from module load. -/
def apiRun (es : List ApiEvent) : NetworkState :=
  es.foldl apiStep NetworkState.initial

/-! ## Helper lemmas -/

/-- Running a Pending Operation adds one continuation invocation per
native completion event in the trace. -/
lemma PendingOp.run_fireCount (es : List OpEvent) (p : PendingOp) :
    (PendingOp.run p es).fireCount =
      p.fireCount + es.countP (fun e => OpEvent.isComplete e) := by
  induction es generalizing p with
  | nil => simp [PendingOp.run]
  | cons e es ih =>
      have hrun : PendingOp.run p (e :: es) = PendingOp.run (p.step e) es := rfl
      rw [hrun, ih]
      cases e with
      | cancelRequest =>
          simp [PendingOp.step, OpEvent.isComplete, List.countP_cons]
      | nativeComplete r =>
          simp [PendingOp.step, OpEvent.isComplete, List.countP_cons]
          omega

/-- A trace without a native completion leaves the delivered outcome
unchanged. -/
lemma PendingOp.run_delivered_of_no_complete (es : List OpEvent) (p : PendingOp)
    (h : es.countP (fun e => OpEvent.isComplete e) = 0) :
    (PendingOp.run p es).delivered = p.delivered := by
  induction es generalizing p with
  | nil => simp [PendingOp.run]
  | cons e es ih =>
      have hrun : PendingOp.run p (e :: es) = PendingOp.run (p.step e) es := rfl
      rw [hrun]
      cases e with
      | cancelRequest =>
          rw [ih _ (by simpa [List.countP_cons, OpEvent.isComplete] using h)]
          simp [PendingOp.step]
      | nativeComplete r =>
          exact absurd h (by simp [List.countP_cons, OpEvent.isComplete])

/-- A trace containing a native completion leaves a delivered outcome. -/
lemma PendingOp.run_delivered_some (es : List OpEvent) (p : PendingOp)
    (h : 0 < es.countP (fun e => OpEvent.isComplete e)) :
    ∃ r, (PendingOp.run p es).delivered = some r := by
  induction es generalizing p with
  | nil => simp at h
  | cons e es ih =>
      have hrun : PendingOp.run p (e :: es) = PendingOp.run (p.step e) es := rfl
      rw [hrun]
      by_cases hes : 0 < es.countP (fun e => OpEvent.isComplete e)
      · exact ih _ hes
      · cases e with
        | cancelRequest =>
            exact absurd (by simpa [List.countP_cons, OpEvent.isComplete] using h) hes
        | nativeComplete r =>
            refine ⟨r, ?_⟩
            rw [PendingOp.run_delivered_of_no_complete es _ (by omega)]
            simp [PendingOp.step]

/-- `exactly once` of the continuation follows from the guard
invariant `startNetworkCount = (initCalled ? 1 : 0)` for the network
state; the invariant is preserved by every API call. -/
lemma apiStep_inv (s : NetworkState)
    (h : s.startNetworkCount = if s.initCalled then 1 else 0) (e : ApiEvent) :
    (apiStep s e).startNetworkCount =
      if (apiStep s e).initCalled then 1 else 0 := by
  cases e <;>
    simp only [apiStep, openStep, init] <;>
    by_cases hav : s.apiVersionSet <;> by_cases hic : s.initCalled <;>
    simp_all

/-- The guard invariant holds along every run from module load. -/
lemma apiRun_inv (es : List ApiEvent) :
    (apiRun es).startNetworkCount = if (apiRun es).initCalled then 1 else 0 := by
  suffices h : ∀ s, s.startNetworkCount = (if s.initCalled then 1 else 0) →
      (es.foldl apiStep s).startNetworkCount =
        if (es.foldl apiStep s).initCalled then 1 else 0 by
    exact h NetworkState.initial rfl
  induction es with
  | nil => intro s hs; simpa using hs
  | cons e es ih => intro s hs; exact ih _ (apiStep_inv s hs e)

/-- Once the guard flag is set, `open()` leaves the module state
unchanged. -/
lemma openStep_of_initCalled (s : NetworkState) (h : s.initCalled = true) :
    openStep s = s := by
  by_cases hav : s.apiVersionSet <;> simp [openStep, init, h, hav]

/-- Exact magnitudes: below the 53-bit boundary the double rounding is
the identity. -/
lemma natToDouble53_exact (n : Nat) (h : n ≤ 2 ^ 53) : natToDouble53 n = n := by
  unfold natToDouble53
  rw [if_pos h]

/-- The `(double)` cast is exact on 64-bit integers of magnitude at
most `2 ^ 53`. -/
lemma doubleOfInt64_exact (v : Int) (h : v.natAbs ≤ 2 ^ 53) :
    doubleOfInt64 v = v := by
  unfold doubleOfInt64
  by_cases h0 : 0 ≤ v
  · rw [if_pos h0, natToDouble53_exact _ (by omega)]
    omega
  · rw [if_neg h0, natToDouble53_exact _ (by omega)]
    omega

/-! ## Claims -/

/-- C1: for every Pending Operation (watches included), the completion
continuation fires exactly once — with either a decoded value or a
typed error — over any interleaving of host cancel requests with the
single native completion signal the external library guarantees. -/
theorem pendingOp_continuation_fires_exactly_once (es : List OpEvent)
    (h : es.countP (fun e => OpEvent.isComplete e) = 1) :
    (PendingOp.run PendingOp.initial es).fireCount = 1 ∧
    ∃ r, (PendingOp.run PendingOp.initial es).delivered = some r := by
  refine ⟨?_, ?_⟩
  · rw [PendingOp.run_fireCount, h]
    rfl
  · exact PendingOp.run_delivered_some es PendingOp.initial (by omega)

/-- C1 witness: a cancel racing the native completion on both sides
still yields exactly one continuation invocation. -/
theorem pendingOp_fires_once_witness :
    ([OpEvent.cancelRequest, OpEvent.nativeComplete (Except.error 1101),
        OpEvent.cancelRequest].countP (fun e => OpEvent.isComplete e) = 1) ∧
    ((PendingOp.run PendingOp.initial
        [OpEvent.cancelRequest, OpEvent.nativeComplete (Except.error 1101),
         OpEvent.cancelRequest]).fireCount = 1 ∧
      ∃ r, (PendingOp.run PendingOp.initial
        [OpEvent.cancelRequest, OpEvent.nativeComplete (Except.error 1101),
         OpEvent.cancelRequest]).delivered = some r) :=
  ⟨by decide, pendingOp_continuation_fires_exactly_once _ (by decide)⟩

/-- C2: with a zero error code, `getValue` delivers the explicit
no-value result `Null` when the key-not-present sentinel is set, a
Buffer copy of the value region otherwise, and `Null` differs from
every Buffer, the empty one included. -/
theorem getValue_null_vs_copy (f : ValueFuture) (h : f.errorCode = 0) :
    (f.valuePresent = false → surface (getValue f) = Except.ok JSValue.null) ∧
    (f.valuePresent = true →
      surface (getValue f) = Except.ok (JSValue.buffer f.value)) ∧
    ∀ b : List UInt8, JSValue.null ≠ JSValue.buffer b := by
  refine ⟨?_, ?_, ?_⟩
  · intro hv; simp [getValue, surface, h, hv]
  · intro hv; simp [getValue, surface, h, hv]
  · intro b hb; cases hb

/-- C2 witness: a cleared key decodes to explicit no-value. -/
theorem getValue_null_vs_copy_witness :
    ({ errorCode := 0, valuePresent := false, value := [] } :
        ValueFuture).errorCode = 0 ∧
    (({ errorCode := 0, valuePresent := false, value := [] } :
        ValueFuture).valuePresent = false →
      surface (getValue
        { errorCode := 0, valuePresent := false, value := [] }) =
        Except.ok JSValue.null) :=
  ⟨rfl, (getValue_null_vs_copy
    { errorCode := 0, valuePresent := false, value := [] } rfl).1⟩

/-- C3: every decode function returns `Undefined` (no native result is
read into a host value) and surfaces the error code when the future's
native error code is non-zero. -/
theorem decode_nonzero_error_skips (fv : ValueFuture) (fk : KeyFuture)
    (fl : KeyValueFuture) (fs : StringArrayFuture) (fn : VersionFuture)
    (hv : fv.errorCode ≠ 0) (hk : fk.errorCode ≠ 0) (hl : fl.errorCode ≠ 0)
    (hs : fs.errorCode ≠ 0) (hn : fn.errorCode ≠ 0) :
    ((getValue fv).1 = JSValue.undefined ∧
      surface (getValue fv) = Except.error fv.errorCode) ∧
    ((getKey fk).1 = JSValue.undefined ∧
      surface (getKey fk) = Except.error fk.errorCode) ∧
    ((getKeyValueList fl).1 = JSValue.undefined ∧
      surface (getKeyValueList fl) = Except.error fl.errorCode) ∧
    ((getStringArray fs).1 = JSValue.undefined ∧
      surface (getStringArray fs) = Except.error fs.errorCode) ∧
    ((getVersion fn).1 = JSValue.undefined ∧
      surface (getVersion fn) = Except.error fn.errorCode) := by
  simp [getValue, getKey, getKeyValueList, getStringArray, getVersion,
    surface, hv, hk, hl, hs, hn]

/-- C3 witness: a `transaction_cancelled`-style code 1510 is surfaced
by all five decodes. -/
theorem decode_nonzero_error_skips_witness :
    ({ errorCode := 1510, valuePresent := true, value := [7] } :
        ValueFuture).errorCode ≠ 0 ∧
    surface (getValue
      { errorCode := 1510, valuePresent := true, value := [7] }) =
        Except.error 1510 ∧
    surface (getKey { errorCode := 1510, key := [7] }) = Except.error 1510 ∧
    surface (getKeyValueList { errorCode := 1510, kvs := [], more := false }) =
      Except.error 1510 ∧
    surface (getStringArray { errorCode := 1510, strings := [] }) =
      Except.error 1510 ∧
    surface (getVersion { errorCode := 1510, version := 3 }) =
      Except.error 1510 := by
  have h := decode_nonzero_error_skips
    { errorCode := 1510, valuePresent := true, value := [7] }
    { errorCode := 1510, key := [7] }
    { errorCode := 1510, kvs := [], more := false }
    { errorCode := 1510, strings := [] }
    { errorCode := 1510, version := 3 }
    (by decide) (by decide) (by decide) (by decide) (by decide)
  exact ⟨by decide, h.1.2, h.2.1.2, h.2.2.1.2, h.2.2.2.1.2, h.2.2.2.2.2⟩

/-- C4: `Transaction::GetVersionStamp` issues the
`fdb_transaction_get_read_version` native call — the same entry point
as `getReadVersion` — and decodes the future with the key decoder
rather than the version decoder. -/
theorem getVersionStamp_uses_read_version_call :
    dispatch AsyncVerb.getVersionStamp =
      (NativeCall.transactionGetReadVersion, DecoderTag.keyTag) ∧
    (dispatch AsyncVerb.getVersionStamp).1 =
      (dispatch AsyncVerb.getReadVersion).1 ∧
    (dispatch AsyncVerb.getVersionStamp).2 ≠
      (dispatch AsyncVerb.getReadVersion).2 := by
  decide

/-- C5: a textual input is marshaled into an owned UTF-8 byte copy of
the string, a binary buffer input into an un-owned view holding exactly
the buffer's bytes, each with the matching length. -/
theorem stringParams_marshaling (s : String) (b : List UInt8) :
    (StringParams (HostBytes.text s)).owned = true ∧
    (StringParams (HostBytes.text s)).str = utf8Bytes s ∧
    (StringParams (HostBytes.text s)).len = (utf8Bytes s).length ∧
    (StringParams (HostBytes.buffer b)).owned = false ∧
    (StringParams (HostBytes.buffer b)).str = b ∧
    (StringParams (HostBytes.buffer b)).len = b.length :=
  ⟨rfl, rfl, rfl, rfl, rfl, rfl⟩

/-- C6: the synchronous fallible verbs raise the typed error right at
the call site on a non-zero native code and return normally on zero. -/
theorem sync_verbs_raise_immediately (e : Nat) (v : Int) (he : e ≠ 0) :
    AddReadConflictRange e = Except.error e ∧
    AddWriteConflictRange e = Except.error e ∧
    GetCommittedVersion e v = Except.error e ∧
    AddReadConflictRange 0 = Except.ok () ∧
    AddWriteConflictRange 0 = Except.ok () ∧
    GetCommittedVersion 0 v = Except.ok (doubleOfInt64 v) := by
  simp [AddReadConflictRange, AddWriteConflictRange, AddConflictRange,
    GetCommittedVersion, he]

/-- C6 witness: code 2000 throws, code 0 returns the committed
version. -/
theorem sync_verbs_raise_immediately_witness :
    (2000 : Nat) ≠ 0 ∧
    (AddReadConflictRange 2000 = Except.error 2000 ∧
      AddWriteConflictRange 2000 = Except.error 2000 ∧
      GetCommittedVersion 2000 5 = Except.error 2000 ∧
      AddReadConflictRange 0 = Except.ok () ∧
      AddWriteConflictRange 0 = Except.ok () ∧
      GetCommittedVersion 0 5 = Except.ok (doubleOfInt64 5)) :=
  ⟨by decide, sync_verbs_raise_immediately 2000 5 (by decide)⟩

/-- C7 counterexample: at version `2 ^ 53 + 1` the `(double)version`
cast in `getVersion` silently rounds to `2 ^ 53`, so the host number is
not equal to the native value (the code's own comment notes the 53-bit
limit). -/
theorem getVersion_not_exact_counterexample :
    (getVersion { errorCode := 0, version := 9007199254740993 }).2 = 0 ∧
    (getVersion { errorCode := 0, version := 9007199254740993 }).1 =
      JSValue.number 9007199254740992 ∧
    (getVersion { errorCode := 0, version := 9007199254740993 }).1 ≠
      JSValue.number 9007199254740993 ∧
    GetCommittedVersion 0 9007199254740993 = Except.ok 9007199254740992 := by
  have hd : doubleOfInt64 9007199254740993 = 9007199254740992 := by decide
  refine ⟨by simp [getVersion], by simp [getVersion, hd], ?_,
    by simp [GetCommittedVersion, hd]⟩
  intro hEq
  simp [getVersion, hd] at hEq

/-- C7 amended: both version paths deliver the native value exactly
whenever its magnitude is at most `2 ^ 53`; beyond that boundary the
`(double)` cast silently rounds to the nearest representable value
with no signal to the caller. -/
theorem version_exact_up_to_53_bits (f : VersionFuture) (v : Int)
    (hf : f.errorCode = 0) (hm : f.version.natAbs ≤ 2 ^ 53)
    (hv : v.natAbs ≤ 2 ^ 53) :
    surface (getVersion f) = Except.ok (JSValue.number f.version) ∧
    GetCommittedVersion 0 v = Except.ok v := by
  constructor
  · simp [getVersion, surface, hf, doubleOfInt64_exact f.version hm]
  · simp [GetCommittedVersion, doubleOfInt64_exact v hv]

/-- C7 witness: versions 42 and -7 are delivered exactly. -/
theorem version_exact_up_to_53_bits_witness :
    ({ errorCode := 0, version := 42 } : VersionFuture).errorCode = 0 ∧
    (Int.natAbs 42 ≤ 2 ^ 53) ∧ (Int.natAbs (-7) ≤ 2 ^ 53) ∧
    (surface (getVersion { errorCode := 0, version := 42 }) =
        Except.ok (JSValue.number 42) ∧
      GetCommittedVersion 0 (-7) = Except.ok (-7)) :=
  ⟨rfl, by decide, by decide,
    version_exact_up_to_53_bits { errorCode := 0, version := 42 } (-7)
      rfl (by decide) (by decide)⟩

/-- C8: with a zero error code, `getKeyValueList` yields the pairs in
store order — one host pair per native entry, each a copy of the native
key and value regions — together with the native `more` flag. -/
theorem getKeyValueList_pairs (f : KeyValueFuture) (h : f.errorCode = 0) :
    surface (getKeyValueList f) =
      Except.ok
        (JSValue.kvResult (f.kvs.map fun kv => (kv.key, kv.value)) f.more) ∧
    (f.kvs.map fun kv => (kv.key, kv.value)).length = f.kvs.length ∧
    ∀ i (hi : i < f.kvs.length),
      (f.kvs.map fun kv => (kv.key, kv.value)).get ⟨i, by simpa using hi⟩ =
        ((f.kvs.get ⟨i, hi⟩).key, (f.kvs.get ⟨i, hi⟩).value) := by
  refine ⟨by simp [getKeyValueList, surface, h], by simp, ?_⟩
  intro i hi
  simp [List.get_eq_getElem]

/-- C8 witness: a two-entry batch decodes to both pairs, in order,
with the `more` flag. -/
theorem getKeyValueList_pairs_witness :
    ({ errorCode := 0,
       kvs := [{ key := [1], value := [2, 3] }, { key := [4], value := [] }],
       more := true } : KeyValueFuture).errorCode = 0 ∧
    surface (getKeyValueList
      { errorCode := 0,
        kvs := [{ key := [1], value := [2, 3] }, { key := [4], value := [] }],
        more := true }) =
      Except.ok (JSValue.kvResult [([1], [2, 3]), ([4], [])] true) :=
  ⟨rfl,
    (getKeyValueList_pairs
      { errorCode := 0,
        kvs := [{ key := [1], value := [2, 3] }, { key := [4], value := [] }],
        more := true } rfl).1⟩

/-- C9: `Watch::Cancel` is idempotent — a second `cancel()` leaves the
subscription exactly where the first left it — and after natural
completion of the native future `cancel()` is a no-op. -/
theorem watch_cancel_idempotent (w : WatchState) :
    WatchCancel (WatchCancel w) = WatchCancel w ∧
    (w.future.completed = true → WatchCancel w = w) := by
  constructor
  · by_cases hc : w.hasCallback ∧ w.hasFuture
    · by_cases hf : w.future.completed <;>
        simp [WatchCancel, fdbFutureCancel, hc, hf]
    · simp [WatchCancel, hc]
  · cases w with
    | mk hcb hfu fut =>
        intro hdone
        simp only [] at hdone
        simp [WatchCancel, fdbFutureCancel, hdone]

/-- C9 witness: cancel twice equals cancel once, and on an
already-completed watch cancel changes nothing. -/
theorem watch_cancel_idempotent_witness :
    (WatchCancel (WatchCancel
        { hasCallback := true, hasFuture := true,
          future := { completed := true, cancelRequested := false } }) =
      WatchCancel
        { hasCallback := true, hasFuture := true,
          future := { completed := true, cancelRequested := false } }) ∧
    WatchCancel
        { hasCallback := true, hasFuture := true,
          future := { completed := true, cancelRequested := false } } =
      { hasCallback := true, hasFuture := true,
        future := { completed := true, cancelRequested := false } } :=
  ⟨(watch_cancel_idempotent
      { hasCallback := true, hasFuture := true,
        future := { completed := true, cancelRequested := false } }).1,
    (watch_cancel_idempotent
      { hasCallback := true, hasFuture := true,
        future := { completed := true, cancelRequested := false } }).2 rfl⟩

/-- C10: over any sequence of `setAPIVersion`, `open`, deprecated
`openSync` and stub-cluster open calls from module load, the native
network is started at most once, and once the guard flag is set a
further `open()` leaves the module state unchanged. -/
theorem startNetwork_at_most_once (es : List ApiEvent) :
    (apiRun es).startNetworkCount ≤ 1 ∧
    ((apiRun es).initCalled = true → openStep (apiRun es) = apiRun es) := by
  constructor
  · rw [apiRun_inv es]
    by_cases h : (apiRun es).initCalled <;> simp [h]
  · exact openStep_of_initCalled (apiRun es)

/-- C10 witness: set the API version, then open twice — the network
starts once and the second open reuses it. -/
theorem startNetwork_at_most_once_witness :
    (apiRun [ApiEvent.setAPIVersion, ApiEvent.openCall,
        ApiEvent.openCall]).startNetworkCount ≤ 1 ∧
    openStep (apiRun [ApiEvent.setAPIVersion, ApiEvent.openCall,
        ApiEvent.openCall]) =
      apiRun [ApiEvent.setAPIVersion, ApiEvent.openCall, ApiEvent.openCall] :=
  ⟨(startNetwork_at_most_once
      [ApiEvent.setAPIVersion, ApiEvent.openCall, ApiEvent.openCall]).1,
    (startNetwork_at_most_once
      [ApiEvent.setAPIVersion, ApiEvent.openCall, ApiEvent.openCall]).2
      (by decide)⟩

end FdbBinding
